/-
  Verification of the GHL MCP integration core against its specification.

  The development shallowly embeds the JavaScript source:
  * `shared/ghl-utils.js`   — rate limiter (`createRateLimiter`), retry wrapper
                              (`withRetry`) and its default transient-error
                              classifier.
  * `shared/ghl-mcp-client.js` — SSE stream decoding (`parseSSEResponse`) and
                              the response-correlation step of `sendJsonRpc`.
  * `openclaw-skill/ghl_monitor.js` — monitoring checks (`checkStaleLeads`,
                              `checkPipelineBottlenecks`) and the aggregation
                              in `runAllChecks`.
  * `cli/encryption.js`     — packing/unpacking of encrypted credentials.

  Timestamps are modelled as `Int` milliseconds (JavaScript `Date.now()` /
  `new Date(x).getTime()` values).  Each `Date.now()` call site of the source
  becomes an explicit time parameter.  Asynchronous suspension (`await` of a
  `setTimeout` promise) is modelled by recording the waited duration in the
  function's result.
-/

import Mathlib

set_option maxHeartbeats 1000000

namespace GhlMcp

/-! ## Rate limiter (`createRateLimiter` in `shared/ghl-utils.js`)

State owned by the closure: `windowStart`, `windowCount`, `dayStart`,
`dayCount`.  Configuration: `maxPerWindow` (default 100), `windowMs`
(default 10000), `maxPerDay` (default 200000). -/

structure RLConfig where
  maxPerWindow : Nat
  windowMs : Int
  maxPerDay : Nat
deriving Repr, DecidableEq

structure RLState where
  windowStart : Int
  windowCount : Nat
  dayStart : Int
  dayCount : Nat
deriving Repr, DecidableEq

/-- One day in milliseconds (the literal `86_400_000` in `resetDayIfNeeded`). -/
def dayMs : Int := 86400000

/-- Model of `resetWindowIfNeeded` from `ghl-utils.js`: `now` is its `Date.now()` call. -/
def resetWindowIfNeeded (cfg : RLConfig) (now : Int) (s : RLState) : RLState :=
  if cfg.windowMs ≤ now - s.windowStart then
    { s with windowStart := now, windowCount := 0 }
  else s

/-- Model of `resetDayIfNeeded` from `ghl-utils.js`: `now` is its `Date.now()` call. -/
def resetDayIfNeeded (now : Int) (s : RLState) : RLState :=
  if dayMs ≤ now - s.dayStart then
    { s with dayStart := now, dayCount := 0 }
  else s

/-- Outcome of one `acquire()` call: the thrown daily-limit error, or success
carrying `some waitMs` when the call awaited the short-window timeout (and
`none` when it proceeded without suspending). -/
inductive AcquireResult where
  | quotaExceeded
  | proceeded (waitedMs : Option Int)
deriving Repr, DecidableEq

/-- Model of `acquire()` from `ghl-utils.js`.  `tDay`, `tWin`, `tWait` are the
successive `Date.now()` readings inside `resetDayIfNeeded`,
`resetWindowIfNeeded` and the `waitMs` computation; the `setTimeout` resume
time is `tWait + max waitMs 0` (a negative delay fires immediately). -/
def acquire (cfg : RLConfig) (tDay tWin tWait : Int) (s : RLState) :
    AcquireResult × RLState :=
  let s1 := resetDayIfNeeded tDay s
  if cfg.maxPerDay ≤ s1.dayCount then
    (AcquireResult.quotaExceeded, s1)
  else
    let s2 := resetWindowIfNeeded cfg tWin s1
    if cfg.maxPerWindow ≤ s2.windowCount then
      let waitMs : Int := cfg.windowMs - (tWait - s2.windowStart) + 50
      let tResume := tWait + max waitMs 0
      let s3 := resetWindowIfNeeded cfg tResume s2
      (AcquireResult.proceeded (some waitMs),
        { s3 with windowCount := s3.windowCount + 1, dayCount := s3.dayCount + 1 })
    else
      (AcquireResult.proceeded none,
        { s2 with windowCount := s2.windowCount + 1, dayCount := s2.dayCount + 1 })

/-- A sequence of `acquire()` calls, one per time in `ts` (each call's three
`Date.now()` readings coincide with its element of `ts`). -/
def acquireSeq (cfg : RLConfig) : List Int → RLState → List AcquireResult × RLState
  | [], s => ([], s)
  | t :: ts, s =>
    let r := acquire cfg t t t s
    let rest := acquireSeq cfg ts r.2
    (r.1 :: rest.1, rest.2)

/-- Model of `stats()` from `ghl-utils.js`: runs both reset helpers (at times `tWin`,
`tDay`) and returns `(windowRemaining, dayRemaining, dayCount)` together with
the state left behind by the resets. -/
def stats (cfg : RLConfig) (tWin tDay : Int) (s : RLState) :
    (Int × Int × Nat) × RLState :=
  let s1 := resetWindowIfNeeded cfg tWin s
  let s2 := resetDayIfNeeded tDay s1
  (((cfg.maxPerWindow : Int) - (s2.windowCount : Int),
    (cfg.maxPerDay : Int) - (s2.dayCount : Int), s2.dayCount), s2)

/-- C2 — If the daily counter is at or above the daily cap and the day
window has not yet elapsed, `acquire()` throws the daily-limit error
immediately (result `quotaExceeded`, which performs no `setTimeout` wait) and
leaves the whole limiter state — both counters and both window-start
timestamps — unchanged. -/
theorem acquire_dailyCap_failsImmediately (cfg : RLConfig) (tDay tWin tWait : Int)
    (s : RLState) (hday : tDay - s.dayStart < dayMs)
    (hcap : cfg.maxPerDay ≤ s.dayCount) :
    acquire cfg tDay tWin tWait s = (AcquireResult.quotaExceeded, s) := by
  have h1 : ¬ (dayMs ≤ tDay - s.dayStart) := not_le.mpr hday
  simp only [acquire, resetDayIfNeeded, if_neg h1, if_pos hcap]

/-- Witness for C2 at a concrete limiter: daily count already at the cap,
day window not elapsed. -/
theorem acquire_dailyCap_failsImmediately_witness :
    acquire ⟨100, 10000, 200000⟩ 5 5 5 ⟨0, 3, 0, 200000⟩
      = (AcquireResult.quotaExceeded, ⟨0, 3, 0, 200000⟩) :=
  acquire_dailyCap_failsImmediately _ _ _ _ _ (by decide) (by decide)

/-- Helper for C3: a batch of `acquire()` calls, all inside the current short
window and day window, with enough headroom in both caps, all proceed without
suspending and just bump both counters. -/
theorem acquireSeq_within_caps (cfg : RLConfig) (ts : List Int) (s : RLState)
    (hts : ∀ u ∈ ts, u - s.windowStart < cfg.windowMs ∧ u - s.dayStart < dayMs)
    (hwin : s.windowCount + ts.length ≤ cfg.maxPerWindow)
    (hday : s.dayCount + ts.length ≤ cfg.maxPerDay) :
    acquireSeq cfg ts s =
      (List.replicate ts.length (AcquireResult.proceeded none),
       { s with windowCount := s.windowCount + ts.length,
                dayCount := s.dayCount + ts.length }) := by
  induction ts generalizing s with
  | nil => cases s; simp [acquireSeq]
  | cons t ts ih =>
    have hmem := hts t (List.mem_cons_self t ts)
    have hnday : ¬ (dayMs ≤ t - s.dayStart) := not_le.mpr hmem.2
    have hnwin : ¬ (cfg.windowMs ≤ t - s.windowStart) := not_le.mpr hmem.1
    have hndc : ¬ (cfg.maxPerDay ≤ s.dayCount) := by
      simp only [List.length_cons] at hday; omega
    have hnwc : ¬ (cfg.maxPerWindow ≤ s.windowCount) := by
      simp only [List.length_cons] at hwin; omega
    have hstep : acquire cfg t t t s =
        (AcquireResult.proceeded none,
         { s with windowCount := s.windowCount + 1, dayCount := s.dayCount + 1 }) := by
      simp only [acquire, resetDayIfNeeded, resetWindowIfNeeded,
        if_neg hnday, if_neg hndc, if_neg hnwin, if_neg hnwc]
    have ih' := ih { s with windowCount := s.windowCount + 1, dayCount := s.dayCount + 1 }
        (fun u hu => by simpa using hts u (List.mem_cons_of_mem _ hu))
        (by simp only [List.length_cons] at hwin; simp; omega)
        (by simp only [List.length_cons] at hday; simp; omega)
    simp only [acquireSeq, hstep, ih', List.length_cons, List.replicate_succ,
      Prod.mk.injEq, RLState.mk.injEq, true_and, and_true]
    all_goals omega

/-- C3 — Starting from a fresh short window: a sequence of `acquire()`
calls within one short window, of length equal to the window cap, all proceed
without suspending; the (cap+1)-th call (also inside the window, with daily
headroom) suspends for the remaining window time plus the 50ms safety margin,
and after the wait re-checks the window — which resets it — before
incrementing both counters (window counter ends at 1, day counter is bumped
once more). -/
theorem acquire_window_sequencing (cfg : RLConfig) (ts : List Int) (s : RLState)
    (t : Int)
    (h0 : s.windowCount = 0)
    (hts : ∀ u ∈ ts, u - s.windowStart < cfg.windowMs ∧ u - s.dayStart < dayMs)
    (ht : t - s.windowStart < cfg.windowMs) (htd : t - s.dayStart < dayMs)
    (hlen : ts.length = cfg.maxPerWindow)
    (hday : s.dayCount + ts.length + 1 ≤ cfg.maxPerDay) :
    (acquireSeq cfg ts s).1 = List.replicate ts.length (AcquireResult.proceeded none) ∧
    acquire cfg t t t (acquireSeq cfg ts s).2 =
      (AcquireResult.proceeded (some (cfg.windowMs - (t - s.windowStart) + 50)),
       { windowStart := t + (cfg.windowMs - (t - s.windowStart) + 50),
         windowCount := 1,
         dayStart := s.dayStart,
         dayCount := s.dayCount + ts.length + 1 }) := by
  have hseq := acquireSeq_within_caps cfg ts s hts
    (by omega) (by omega)
  refine ⟨by rw [hseq], ?_⟩
  rw [hseq]
  have hnday : ¬ (dayMs ≤ t - s.dayStart) := not_le.mpr htd
  have hndc : ¬ (cfg.maxPerDay ≤ s.dayCount + ts.length) := by omega
  have hnwin : ¬ (cfg.windowMs ≤ t - s.windowStart) := not_le.mpr ht
  have hwc : cfg.maxPerWindow ≤ s.windowCount + ts.length := by omega
  have hmax : max (cfg.windowMs - (t - s.windowStart) + 50) 0
      = cfg.windowMs - (t - s.windowStart) + 50 := by omega
  have hreset : cfg.windowMs ≤
      t + (cfg.windowMs - (t - s.windowStart) + 50) - s.windowStart := by omega
  simp only [acquire, resetDayIfNeeded, resetWindowIfNeeded,
    if_neg hnday, if_neg hndc, if_neg hnwin, if_pos hwc, if_pos hreset, hmax,
    Prod.mk.injEq, AcquireResult.proceeded.injEq, Option.some.injEq,
    RLState.mk.injEq, true_and, and_true]

/-- Witness for C3: window cap 2, two calls at times 1 and 2, the third at
time 3 waits `10000 - (3 - 0) + 50` ms and then proceeds into the reset
window. -/
theorem acquire_window_sequencing_witness :
    (acquireSeq ⟨2, 10000, 200000⟩ [1, 2] ⟨0, 0, 0, 0⟩).1 =
      List.replicate 2 (AcquireResult.proceeded none) ∧
    acquire ⟨2, 10000, 200000⟩ 3 3 3 (acquireSeq ⟨2, 10000, 200000⟩ [1, 2] ⟨0, 0, 0, 0⟩).2 =
      (AcquireResult.proceeded (some (10000 - (3 - 0) + 50)),
       { windowStart := 3 + (10000 - (3 - 0) + 50),
         windowCount := 1,
         dayStart := 0,
         dayCount := 0 + 2 + 1 }) :=
  acquire_window_sequencing ⟨2, 10000, 200000⟩ [1, 2] ⟨0, 0, 0, 0⟩ 3
    (by decide) (by decide) (by decide) (by decide) (by decide) (by decide)

/-- C8 counterexample — `stats()` is not mutation-free: when the short
window has elapsed at observation time, the reset helper it runs zeroes the
window counter and moves the window start, so the state after the call
differs from the state before it. -/
theorem stats_mutates_state_counterexample :
    (stats ⟨100, 10000, 200000⟩ 10000 10000 ⟨0, 5, 0, 5⟩).2 ≠ ⟨0, 5, 0, 5⟩ := by
  decide

/-- C8 amended — `stats()` returns the remaining capacity of the short
window (`maxPerWindow - windowCount`), the remaining daily capacity
(`maxPerDay - dayCount`) and the day's running count; provided neither
window has elapsed at observation time, the limiter state — window counter,
day counter, window-start and day-start timestamps — is identical before and
after the call.  (When a window has elapsed, `stats()` performs the same
expiry reset as `acquire()` would.) -/
theorem stats_noMutation_withinWindows (cfg : RLConfig) (tWin tDay : Int)
    (s : RLState) (hw : tWin - s.windowStart < cfg.windowMs)
    (hd : tDay - s.dayStart < dayMs) :
    stats cfg tWin tDay s =
      (((cfg.maxPerWindow : Int) - (s.windowCount : Int),
        (cfg.maxPerDay : Int) - (s.dayCount : Int), s.dayCount), s) := by
  have h1 : ¬ (cfg.windowMs ≤ tWin - s.windowStart) := not_le.mpr hw
  have h2 : ¬ (dayMs ≤ tDay - s.dayStart) := not_le.mpr hd
  simp only [stats, resetWindowIfNeeded, resetDayIfNeeded, if_neg h1, if_neg h2]

/-- Witness for the amended C8: fresh windows, no mutation and the expected
remaining capacities. -/
theorem stats_noMutation_withinWindows_witness :
    stats ⟨100, 10000, 200000⟩ 5 5 ⟨0, 3, 0, 7⟩ =
      ((((100 : Nat) : Int) - ((3 : Nat) : Int),
        ((200000 : Nat) : Int) - ((7 : Nat) : Int), 7), ⟨0, 3, 0, 7⟩) :=
  stats_noMutation_withinWindows ⟨100, 10000, 200000⟩ 5 5 ⟨0, 3, 0, 7⟩
    (by decide) (by decide)

/-! ## Retry wrapper (`withRetry` in `shared/ghl-utils.js`)

Errors carry a `message` string.  The default `shouldRetry` predicate checks
`err.message.includes('fetch failed')` and otherwise extracts the first
`HTTP <digits>` status from the message (`parseInt` of the regex capture;
when the regex has no match, the `NaN` comparisons are false). -/

structure Err where
  message : String
deriving Repr, DecidableEq

/-- JavaScript `String.prototype.includes` on character lists. -/
def hasSubstr (pat : List Char) : List Char → Bool
  | [] => pat.isEmpty
  | c :: rest => pat.isPrefixOf (c :: rest) || hasSubstr pat rest

/-- Value of a digit run, as `parseInt` computes it. -/
def digitsVal (ds : List Char) : Nat :=
  ds.foldl (fun n c => n * 10 + (c.toNat - 48)) 0

/-- The regex search `/HTTP (\d+)/`: the first occurrence of `"HTTP "`
followed by at least one digit yields the value of the maximal digit run. -/
def findHttpStatus : List Char → Option Nat
  | [] => none
  | c :: rest =>
    match c, rest with
    | 'H', 'T' :: 'T' :: 'P' :: ' ' :: rest2 =>
      let ds := rest2.takeWhile Char.isDigit
      if ds.isEmpty then findHttpStatus rest else some (digitsVal ds)
    | _, _ => findHttpStatus rest

/-- The default `shouldRetry` predicate of `withRetry`. -/
def defaultShouldRetry (e : Err) : Bool :=
  if hasSubstr "fetch failed".data e.message.data then true
  else
    match findHttpStatus e.message.data with
    | some status => status == 429 || (decide (500 ≤ status) && decide (status < 600))
    | none => false

/-- The retry loop of `withRetry`.  `fn i` is the outcome of the `i`-th
attempt.  `remaining` counts the attempts still allowed after the current one
(`remaining = maxRetries - attempt`).  Returns the final outcome together
with the list of backoff delays slept (in order); each delay is
`baseDelayMs * 2 ^ attempt + jitter attempt`, where `jitter attempt` models
the `Math.random() * baseDelayMs` term of that iteration. -/
def retryLoop {A : Type} (fn : Nat → Except Err A) (sr : Err → Bool)
    (baseDelayMs : Nat) (jitter : Nat → Nat) :
    Nat → Nat → Except Err A × List Nat
  | attempt, remaining =>
    match fn attempt with
    | Except.ok v => (Except.ok v, [])
    | Except.error e =>
      match remaining with
      | 0 => (Except.error e, [])
      | r + 1 =>
        if sr e then
          let d := baseDelayMs * 2 ^ attempt + jitter attempt
          let out := retryLoop fn sr baseDelayMs jitter (attempt + 1) r
          (out.1, d :: out.2)
        else (Except.error e, [])

/-- Model of `withRetry(fn, opts)` with `maxRetries`, `baseDelayMs` and the retry predicate as parameters. -/
def withRetry {A : Type} (fn : Nat → Except Err A) (maxRetries baseDelayMs : Nat)
    (jitter : Nat → Nat) (sr : Err → Bool) : Except Err A × List Nat :=
  retryLoop fn sr baseDelayMs jitter 0 maxRetries

/-- Helper for C4: every backoff delay slept by the loop corresponds to an
attempt that failed with an error the predicate classified as transient, and
has the exponential-backoff-plus-jitter value. -/
theorem retryLoop_delays {A : Type} (fn : Nat → Except Err A) (sr : Err → Bool)
    (base : Nat) (j : Nat → Nat) (attempt remaining : Nat) :
    ∀ i < (retryLoop fn sr base j attempt remaining).2.length,
      ∃ e, fn (attempt + i) = Except.error e ∧ sr e = true ∧
        (retryLoop fn sr base j attempt remaining).2.get? i =
          some (base * 2 ^ (attempt + i) + j (attempt + i)) := by
  induction remaining generalizing attempt with
  | zero =>
    intro i hi
    rcases h : fn attempt with e | v
    · rw [retryLoop, h] at hi; simp at hi
    · rw [retryLoop, h] at hi; simp at hi
  | succ r ih =>
    intro i hi
    rcases h : fn attempt with e | v
    · rw [retryLoop, h] at hi
      rw [retryLoop, h]
      by_cases hsr : sr e = true
      · simp only [hsr, if_true] at hi ⊢
        match i with
        | 0 =>
          exact ⟨e, by simpa using h, hsr, by simp⟩
        | i + 1 =>
          simp only [List.length_cons, Nat.add_lt_add_iff_right] at hi
          obtain ⟨e', he', hsr', hget⟩ := ih (attempt + 1) i hi
          refine ⟨e', by rwa [Nat.add_right_comm] at he', hsr', ?_⟩
          simpa [Nat.add_right_comm attempt 1 i] using hget
      · simp only [Bool.not_eq_true] at hsr
        simp [hsr] at hi
    · rw [retryLoop, h] at hi
      simp at hi

/-- Helper for C4: when every attempt fails and every error is transient, the
loop sleeps once per allowed retry and re-raises the error of the final
attempt unchanged. -/
theorem retryLoop_exhaust {A : Type} (fn : Nat → Except Err A) (sr : Err → Bool)
    (base : Nat) (j : Nat → Nat) (errs : Nat → Err)
    (hf : ∀ i, fn i = Except.error (errs i)) (hsr : ∀ i, sr (errs i) = true) :
    ∀ remaining attempt, retryLoop fn sr base j attempt remaining =
      (Except.error (errs (attempt + remaining)),
       (List.range remaining).map (fun k => base * 2 ^ (attempt + k) + j (attempt + k))) := by
  intro remaining
  induction remaining with
  | zero => intro attempt; rw [retryLoop, hf attempt]; simp
  | succ r ih =>
    intro attempt
    rw [retryLoop, hf attempt]
    simp only [hsr attempt, if_true, ih (attempt + 1)]
    refine Prod.ext ?_ ?_
    · simp only []
      rw [Nat.add_right_comm, Nat.add_assoc]
    · simp only [List.range_succ_eq_map, List.map_cons, List.map_map]
      refine congrArg₂ _ (by rw [Nat.add_zero]) ?_
      refine List.map_congr_left ?_
      intro k _
      simp [Function.comp, Nat.add_right_comm attempt 1 k, Nat.add_assoc]

/-- C4 — `withRetry` with the default classifier: (1) a first-attempt
error not classified transient is re-raised at once, with no backoff delay;
(2) every backoff delay the wrapper sleeps belongs to an attempt whose error
the default predicate classified transient (network `fetch failed`, HTTP
429, or HTTP 5xx), and equals `base * 2^attempt + jitter`; (3) when all
`maxRetries + 1` attempts fail with transient errors, the wrapper sleeps
exactly `maxRetries` delays and re-raises the last attempt's error unchanged
(same `Err` value, hence same message). -/
theorem withRetry_spec {A : Type} (fn : Nat → Except Err A) (m base : Nat)
    (j : Nat → Nat) :
    (∀ e, fn 0 = Except.error e → defaultShouldRetry e = false →
      withRetry fn m base j defaultShouldRetry = (Except.error e, [])) ∧
    (∀ i < (withRetry fn m base j defaultShouldRetry).2.length,
      ∃ e, fn i = Except.error e ∧ defaultShouldRetry e = true ∧
        (withRetry fn m base j defaultShouldRetry).2.get? i =
          some (base * 2 ^ i + j i)) ∧
    (∀ errs : Nat → Err, (∀ i, fn i = Except.error (errs i)) →
      (∀ i, defaultShouldRetry (errs i) = true) →
      withRetry fn m base j defaultShouldRetry =
        (Except.error (errs m),
         (List.range m).map (fun k => base * 2 ^ k + j k))) := by
  refine ⟨?_, ?_, ?_⟩
  · intro e he hsr
    rw [withRetry, retryLoop, he]
    match m with
    | 0 => rfl
    | m + 1 => simp [hsr]
  · intro i hi
    have := retryLoop_delays fn defaultShouldRetry base j 0 m i (by simpa [withRetry] using hi)
    simpa [withRetry] using this
  · intro errs hf hsr
    have := retryLoop_exhaust fn defaultShouldRetry base j errs hf hsr m 0
    simpa [withRetry] using this

/-- Witness for C4: a non-transient `"boom"` error fails at once with no
delays; a persistent transient `"HTTP 500"` error exhausts 2 retries, sleeps
the backoff delays 1000 and 2000 (zero jitter) and re-raises the last error
unchanged. -/
theorem withRetry_spec_witness :
    withRetry (A := Unit) (fun _ => Except.error ⟨"boom"⟩) 3 1000 (fun _ => 0)
        defaultShouldRetry = (Except.error ⟨"boom"⟩, []) ∧
    withRetry (A := Unit) (fun _ => Except.error ⟨"HTTP 500"⟩) 2 1000 (fun _ => 0)
        defaultShouldRetry = (Except.error ⟨"HTTP 500"⟩, [1000, 2000]) := by
  refine ⟨(withRetry_spec (fun _ => Except.error ⟨"boom"⟩) 3 1000 (fun _ => 0)).1
      ⟨"boom"⟩ rfl (by decide), ?_⟩
  have htrans : defaultShouldRetry (Err.mk "HTTP 500") = true := by decide
  have h := (withRetry_spec (A := Unit) (fun _ => Except.error ⟨"HTTP 500"⟩) 2 1000
      (fun _ => 0)).2.2 (fun _ => Err.mk "HTTP 500") (fun _ => rfl)
      (fun _ => htrans)
  simpa using h

/-! ## Response correlation (`sendJsonRpc` in `shared/ghl-mcp-client.js`)

When the transport response is `text/event-stream`, `sendJsonRpc` decodes
the stream into a message list and picks
`messages.filter(m => m.id === request.id).pop() || messages.pop() || {}`. -/

/-- A decoded JSON-RPC message: its `id` (absent for notifications) and an
opaque payload. -/
structure RpcMsg where
  id : Option Int
  payload : String
deriving Repr, DecidableEq

/-- The empty object `{}` that `sendJsonRpc` falls back to. -/
def RpcMsg.empty : RpcMsg := { id := none, payload := "" }

/-- The SSE correlation step of `sendJsonRpc`:
`messages.filter(m => m.id === request.id).pop() || messages.pop() || {}`. -/
def sseSelectResult (reqId : Int) (messages : List RpcMsg) : RpcMsg :=
  match (messages.filter (fun m => m.id == some reqId)).getLast? with
  | some m => m
  | none =>
    match messages.getLast? with
    | some m => m
    | none => RpcMsg.empty

/-- Helper for C1: the head of a filtered list is the first match. -/
theorem find?_eq_head_filter {α : Type} (p : α → Bool) (l : List α) :
    l.find? p = (l.filter p).head? := by
  induction l with
  | nil => rfl
  | cons a l ih =>
    by_cases h : p a = true
    · rw [List.find?_cons_of_pos _ h, List.filter_cons_of_pos h, List.head?_cons]
    · rw [List.find?_cons_of_neg _ (by simpa using h),
        List.filter_cons_of_neg (by simpa using h), ih]

/-- Helper for C1: the last element of a filtered list is the first match
from the right. -/
theorem getLast?_filter_eq_find?_reverse {α : Type} (p : α → Bool) (l : List α) :
    (l.filter p).getLast? = l.reverse.find? p := by
  rw [find?_eq_head_filter, List.filter_reverse, List.head?_reverse]

/-- C1 — When a `tools/call` response arrives as an event stream, the
client's selected response is: the last decoded message whose `id` equals the
request id if one exists (first match over the reversed stream); otherwise
the last message of the stream, whatever its `id`; otherwise — an empty
stream — the empty object. -/
theorem sseSelectResult_correlation (reqId : Int) (messages : List RpcMsg) :
    sseSelectResult reqId messages =
      (match messages.reverse.find? (fun m => m.id == some reqId) with
       | some m => m
       | none =>
         match messages.reverse.head? with
         | some m => m
         | none => RpcMsg.empty) := by
  rw [sseSelectResult, getLast?_filter_eq_find?_reverse, List.head?_reverse]

/-! ## SSE stream decoding (`parseSSEResponse` in `shared/ghl-mcp-client.js`)

Chunks are the successive `reader.read()` results, modelled as decoded
character lists.  `JSON.parse` is the platform primitive; it is a parameter
`parseJson` returning `none` where `JSON.parse` would throw.  Note the
source declares `currentData` inside the `while` loop, so accumulated data
lines do not survive a chunk boundary; only the incomplete trailing line
(`buffer`) does. -/

/-- The `'data: '` line marker. -/
def dataPfx : List Char := ['d', 'a', 't', 'a', ':', ' ']

/-- JavaScript `buffer.split('\n')`. -/
def splitNl : List Char → List (List Char)
  | [] => [[]]
  | c :: rest =>
    if c = '\n' then [] :: splitNl rest
    else
      match splitNl rest with
      | [] => [[c]]
      | h :: t => (c :: h) :: t

/-- The body of the `for (const line of lines)` loop: state is
`(messages, currentData)`. -/
def sseLineStep {J : Type} (parseJson : List Char → Option J)
    (acc : List J × List Char) (line : List Char) : List J × List Char :=
  if dataPfx.isPrefixOf line then (acc.1, acc.2 ++ line.drop 6)
  else if line.isEmpty && !acc.2.isEmpty then
    (match parseJson acc.2 with
     | some j => acc.1 ++ [j]
     | none => acc.1, [])
  else acc

/-- One iteration of the `while` loop of `parseSSEResponse`: state is
`(buffer, messages)`; `currentData` restarts at `''` for every chunk. -/
def sseChunkStep {J : Type} (parseJson : List Char → Option J)
    (st : List Char × List J) (chunk : List Char) : List Char × List J :=
  let buffer := st.1 ++ chunk
  let lines := splitNl buffer
  let buf2 := lines.getLast?.getD []
  let body := lines.dropLast
  let out := body.foldl (sseLineStep parseJson) (st.2, [])
  (buf2, out.1)

/-- Model of `parseSSEResponse`: fold the chunk loop, then flush a trailing
`data: `-prefixed buffer. -/
def parseSSEResponse {J : Type} (parseJson : List Char → Option J)
    (chunks : List (List Char)) : List J :=
  let fin := chunks.foldl (sseChunkStep parseJson) ([], [])
  if dataPfx.isPrefixOf fin.1 then
    match parseJson (fin.1.drop 6) with
    | some j => fin.2 ++ [j]
    | none => fin.2
  else fin.2

/-- Helper for C5: splitting at the first newline. -/
theorem splitNl_append_nl (l m : List Char) (hl : '\n' ∉ l) :
    splitNl (l ++ '\n' :: m) = l :: splitNl m := by
  induction l with
  | nil => simp [splitNl]
  | cons c l ih =>
    have hc : ¬ (c = '\n') := by
      intro h; exact hl (h ▸ List.mem_cons_self c l)
    have hl' : '\n' ∉ l := fun h => hl (List.mem_cons_of_mem _ h)
    simp only [List.cons_append, splitNl, if_neg hc, List.append_eq, ih hl']

/-- Helper for C5: a newline-free text does not split. -/
theorem splitNl_no_nl (l : List Char) (hl : '\n' ∉ l) : splitNl l = [l] := by
  induction l with
  | nil => rfl
  | cons c l ih =>
    have hc : ¬ (c = '\n') := by
      intro h; exact hl (h ▸ List.mem_cons_self c l)
    simp only [splitNl, if_neg hc, ih (fun h => hl (List.mem_cons_of_mem _ h))]

/-- Helper for C5: a list is a prefix test of itself followed by anything. -/
theorem isPre_append (l m : List Char) : l.isPrefixOf (l ++ m) = true := by
  induction l with
  | nil => cases m <;> rfl
  | cons c l ih => simp [List.isPrefixOf, ih]

/-- C5 counterexample — frame accumulation does not survive a chunk
boundary: the single well-formed terminated frame `"data: P\n\n"` decodes to
one message when delivered in one chunk, but to *no* messages when the same
bytes arrive as `"data: P\n"` followed by `"\n"` (because `currentData` is
local to the per-chunk loop). -/
theorem parseSSEResponse_chunk_boundary_counterexample :
    parseSSEResponse (fun s => some s) ["data: P\n".data, "\n".data]
        = ([] : List (List Char)) ∧
    parseSSEResponse (fun s => some s) ["data: P\n\n".data] = ["P".data] := by
  constructor <;> rfl

/-- C5 amended — within a single chunk, `parseSSEResponse` behaves as
specified: a terminated `data:` frame yields exactly one parsed message; a
frame of several `data:` lines accumulates them (in order) into one payload;
two terminated frames yield two messages in input order; a payload the JSON
parser rejects is discarded without failing (the decoder is total); and a
trailing unterminated `data:` line is flushed at stream end.  Accumulated
data lines are lost at a chunk boundary (see the counterexample), so these
guarantees are per-chunk, not for arbitrary chunkings. -/
theorem parseSSEResponse_single_chunk_spec {J : Type}
    (parse : List Char → Option J) (P Q : List Char) (j k m : J)
    (hP : parse P = some j) (hPne : P ≠ []) (hPnl : '\n' ∉ P)
    (hQ : parse Q = some k) (hQne : Q ≠ []) (hQnl : '\n' ∉ Q)
    (hPQ : parse (P ++ Q) = some m) :
    parseSSEResponse parse [dataPfx ++ P ++ ['\n', '\n']] = [j] ∧
    parseSSEResponse parse
        [dataPfx ++ P ++ ['\n', '\n'] ++ (dataPfx ++ Q ++ ['\n', '\n'])]
        = [j, k] ∧
    parseSSEResponse parse
        [dataPfx ++ P ++ '\n' :: (dataPfx ++ Q ++ ['\n', '\n'])] = [m] ∧
    (∀ parse2 : List Char → Option J, parse2 P = none →
      parseSSEResponse parse2 [dataPfx ++ P ++ ['\n', '\n']] = []) ∧
    parseSSEResponse parse [dataPfx ++ P] = [j] := by
  have hnd : '\n' ∉ dataPfx := by decide
  have hlP : '\n' ∉ dataPfx ++ P := by
    intro h; rcases List.mem_append.mp h with h | h
    · exact hnd h
    · exact hPnl h
  have hlQ : '\n' ∉ dataPfx ++ Q := by
    intro h; rcases List.mem_append.mp h with h | h
    · exact hnd h
    · exact hQnl h
  have hpreP : dataPfx.isPrefixOf (dataPfx ++ P) = true := isPre_append dataPfx P
  have hpreQ : dataPfx.isPrefixOf (dataPfx ++ Q) = true := isPre_append dataPfx Q
  have hpre0 : dataPfx.isPrefixOf ([] : List Char) = false := rfl
  have hdropP : (dataPfx ++ P).drop 6 = P := rfl
  have hdropQ : (dataPfx ++ Q).drop 6 = Q := rfl
  have hPe : P.isEmpty = false := by
    cases P with
    | nil => exact absurd rfl hPne
    | cons a l => rfl
  have hPQe : (P ++ Q).isEmpty = false := by
    cases P with
    | nil => exact absurd rfl hPne
    | cons a l => rfl
  have hsplit1 : splitNl (dataPfx ++ P ++ ['\n', '\n']) = [dataPfx ++ P, [], []] := by
    have he : dataPfx ++ P ++ ['\n', '\n'] = (dataPfx ++ P) ++ '\n' :: ['\n'] := by
      simp [List.append_assoc]
    rw [he, splitNl_append_nl _ _ hlP]; rfl
  refine ⟨?_, ?_, ?_, ?_, ?_⟩
  · simp only [parseSSEResponse, List.foldl_cons, List.foldl_nil, sseChunkStep,
      List.nil_append, hsplit1, List.getLast?_cons_cons, List.getLast?_singleton,
      Option.getD_some, List.dropLast_cons₂, List.dropLast_single, sseLineStep,
      hpreP, hpre0, hdropP, if_true, Bool.false_eq_true, if_false,
      List.isEmpty_nil, hPe, Bool.not_false, Bool.and_true, Bool.and_self, hP]
  · have he : dataPfx ++ P ++ ['\n', '\n'] ++ (dataPfx ++ Q ++ ['\n', '\n'])
        = (dataPfx ++ P) ++ '\n' :: ('\n' :: (dataPfx ++ Q ++ ['\n', '\n'])) := by
      simp [List.append_assoc]
    have hsplit2 : splitNl (dataPfx ++ P ++ ['\n', '\n'] ++ (dataPfx ++ Q ++ ['\n', '\n']))
        = [dataPfx ++ P, [], dataPfx ++ Q, [], []] := by
      rw [he, splitNl_append_nl _ _ hlP]
      have he2 : ('\n' :: (dataPfx ++ Q ++ ['\n', '\n'])) =
          [] ++ '\n' :: ((dataPfx ++ Q) ++ '\n' :: ['\n']) := by
        simp [List.append_assoc]
      rw [he2, splitNl_append_nl _ _ (by simp), splitNl_append_nl _ _ hlQ]; rfl
    simp only [parseSSEResponse, List.foldl_cons, List.foldl_nil, sseChunkStep,
      List.nil_append, hsplit2, List.getLast?_cons_cons, List.getLast?_singleton,
      Option.getD_some, List.dropLast_cons₂, List.dropLast_single, sseLineStep,
      hpreP, hpreQ, hpre0, hdropP, hdropQ, if_true, Bool.false_eq_true, if_false,
      List.isEmpty_nil, hPe, Bool.not_false, Bool.and_true, Bool.and_self, hP, hQ]
    simp [hPe, hQne]
  · have he : dataPfx ++ P ++ '\n' :: (dataPfx ++ Q ++ ['\n', '\n'])
        = (dataPfx ++ P) ++ '\n' :: ((dataPfx ++ Q) ++ '\n' :: ['\n']) := by
      simp [List.append_assoc]
    have hsplit3 : splitNl (dataPfx ++ P ++ '\n' :: (dataPfx ++ Q ++ ['\n', '\n']))
        = [dataPfx ++ P, dataPfx ++ Q, [], []] := by
      rw [he, splitNl_append_nl _ _ hlP, splitNl_append_nl _ _ hlQ]; rfl
    simp only [parseSSEResponse, List.foldl_cons, List.foldl_nil, sseChunkStep,
      List.nil_append, hsplit3, List.getLast?_cons_cons, List.getLast?_singleton,
      Option.getD_some, List.dropLast_cons₂, List.dropLast_single, sseLineStep,
      hpreP, hpreQ, hpre0, hdropP, hdropQ, if_true, Bool.false_eq_true, if_false,
      List.isEmpty_nil, hPQe, Bool.not_false, Bool.and_true, Bool.and_self, hPQ]
  · intro parse2 h2
    simp only [parseSSEResponse, List.foldl_cons, List.foldl_nil, sseChunkStep,
      List.nil_append, hsplit1, List.getLast?_cons_cons, List.getLast?_singleton,
      Option.getD_some, List.dropLast_cons₂, List.dropLast_single, sseLineStep,
      hpreP, hpre0, hdropP, if_true, Bool.false_eq_true, if_false,
      List.isEmpty_nil, hPe, Bool.not_false, Bool.and_true, Bool.and_self, h2]
  · have hsplitP : splitNl (dataPfx ++ P) = [dataPfx ++ P] := splitNl_no_nl _ hlP
    simp only [parseSSEResponse, List.foldl_cons, List.foldl_nil, sseChunkStep,
      List.nil_append, hsplitP, List.getLast?_singleton, Option.getD_some,
      List.dropLast_single, List.foldl_nil, hpreP, hdropP, if_true, hP]

/-- Witness for the amended C5 at concrete payloads `P = "p"`, `Q = "q"`
with the identity parser. -/
theorem parseSSEResponse_single_chunk_spec_witness :
    parseSSEResponse (fun s => some s) [dataPfx ++ ['p'] ++ ['\n', '\n']] = [['p']] ∧
    parseSSEResponse (fun s => some s)
        [dataPfx ++ ['p'] ++ ['\n', '\n'] ++ (dataPfx ++ ['q'] ++ ['\n', '\n'])]
        = [['p'], ['q']] ∧
    parseSSEResponse (fun s => some s)
        [dataPfx ++ ['p'] ++ '\n' :: (dataPfx ++ ['q'] ++ ['\n', '\n'])] = [['p', 'q']] ∧
    (∀ parse2 : List Char → Option (List Char), parse2 ['p'] = none →
      parseSSEResponse parse2 [dataPfx ++ ['p'] ++ ['\n', '\n']] = []) ∧
    parseSSEResponse (fun s => some s) [dataPfx ++ ['p']] = [['p']] :=
  parseSSEResponse_single_chunk_spec (fun s => some s) ['p'] ['q'] ['p'] ['q']
    ['p', 'q'] rfl (by decide) (by decide) rfl (by decide) (by decide) rfl

/-! ## Stale-leads check (`checkStaleLeads` in `openclaw-skill/ghl_monitor.js`)

Contact timestamps are `Option Int` epoch milliseconds (`new Date(x)` of the
API's date strings; an absent or empty-string field is `none`).  The source
filter is `c.lastActivity || c.dateUpdated || c.dateAdded` — JavaScript `||`
coalescing, i.e. the *first present* field, not the most recent one. -/

structure Contact where
  id : String
  lastActivity : Option Int
  dateUpdated : Option Int
  dateAdded : Option Int
deriving Repr, DecidableEq

/-- The coalescing `c.lastActivity || c.dateUpdated || c.dateAdded`. -/
def contactActivityTime (c : Contact) : Option Int :=
  c.lastActivity.orElse (fun _ => c.dateUpdated.orElse (fun _ => c.dateAdded))

/-- The threshold `config.thresholds?.stale_lead_hours || 48` (JavaScript `||`: an absent
or zero configured value falls back to the default 48). -/
def staleThreshold (cfgv : Option Int) : Int :=
  match cfgv with
  | some v => if v == 0 then 48 else v
  | none => 48

/-- The filter predicate of `checkStaleLeads`:
`lastActivity && new Date(lastActivity) < new Date(cutoff)` with
`cutoff = now - threshold * 3600_000`. -/
def isStale (now thresholdHours : Int) (c : Contact) : Bool :=
  match contactActivityTime c with
  | some t => decide (t < now - thresholdHours * 3600000)
  | none => false

/-- Model of `checkStaleLeads` over an already-fetched contact sample: returns
`(count, items, hasMore)` — `items` keeps the underlying contacts (the
source additionally projects them to display records). -/
def checkStaleLeads (now : Int) (cfgv : Option Int) (contacts : List Contact) :
    Nat × List Contact × Bool :=
  let stale := contacts.filter (isStale now (staleThreshold cfgv))
  (stale.length, stale.take 10, decide (stale.length > 10))

/-- The claim's criterion, modelled from the spec's words: the *most recent*
of `{lastActivity, dateUpdated, dateAdded}` (for comparison with the source's
first-present coalescing). -/
def mostRecentActivityTime (c : Contact) : Option Int :=
  [c.lastActivity, c.dateUpdated, c.dateAdded].foldl
    (fun acc o =>
      match acc, o with
      | some a, some b => some (max a b)
      | some a, none => some a
      | none, b => b) none

/-- The spec-worded stale criterion: most recent activity predates the
cutoff. -/
def isStaleSpec (now thresholdHours : Int) (c : Contact) : Bool :=
  match mostRecentActivityTime c with
  | some t => decide (t < now - thresholdHours * 3600000)
  | none => false

/-- C6 counterexample — the code does not use the most recent of
`{lastActivity, dateUpdated, dateAdded}`: a contact whose `lastActivity` is
50h old but whose `dateUpdated` is 1h old is included by `checkStaleLeads`
(the coalescing picks `lastActivity`), although its most recent activity
does not predate the 48h cutoff. -/
theorem checkStaleLeads_not_mostRecent_counterexample :
    (checkStaleLeads 0 none
        [⟨"c1", some (-(50 * 3600000)), some (-(1 * 3600000)), none⟩]).2.1
      = [⟨"c1", some (-(50 * 3600000)), some (-(1 * 3600000)), none⟩] ∧
    isStaleSpec 0 48 ⟨"c1", some (-(50 * 3600000)), some (-(1 * 3600000)), none⟩
      = false := by
  constructor <;> rfl

/-- C6 amended — `checkStaleLeads` includes a contact exactly when the
*first present* of `{lastActivity, dateUpdated, dateAdded}` (in that
priority order) predates `now` minus the configured hour threshold (default
48h); contacts with none of the three are excluded.  Every contact in
`items` satisfies that criterion; the count is the number of sampled
contacts satisfying it; and with threshold 48h a contact whose
`lastActivity` is 50 hours old is in `items` while one 40 hours old is
not. -/
theorem checkStaleLeads_spec (now : Int) (cfgv : Option Int)
    (contacts : List Contact) (c : Contact) :
    (c ∈ (checkStaleLeads now cfgv contacts).2.1 →
      ∃ t, contactActivityTime c = some t ∧
        t < now - staleThreshold cfgv * 3600000) ∧
    ((checkStaleLeads now cfgv contacts).1 = (contacts.countP (fun c =>
      match c.lastActivity, c.dateUpdated, c.dateAdded with
      | some t, _, _ => decide (t < now - staleThreshold cfgv * 3600000)
      | none, some t, _ => decide (t < now - staleThreshold cfgv * 3600000)
      | none, none, some t => decide (t < now - staleThreshold cfgv * 3600000)
      | none, none, none => false))) ∧
    (checkStaleLeads now none [⟨"x", some (now - 50 * 3600000), none, none⟩]).2.1
      = [⟨"x", some (now - 50 * 3600000), none, none⟩] ∧
    (checkStaleLeads now none [⟨"y", some (now - 40 * 3600000), none, none⟩]).2.1
      = [] := by
  refine ⟨?_, ?_, ?_, ?_⟩
  · intro hc
    have hmem : c ∈ contacts.filter (isStale now (staleThreshold cfgv)) := by
      have hsub := List.take_subset 10 (contacts.filter (isStale now (staleThreshold cfgv)))
      exact hsub hc
    have hst := List.of_mem_filter hmem
    rw [isStale] at hst
    rcases h : contactActivityTime c with _ | t
    · rw [h] at hst; cases hst
    · rw [h] at hst
      exact ⟨t, rfl, by simpa using hst⟩
  · rw [checkStaleLeads]
    simp only [List.countP_eq_length_filter]
    refine congrArg _ (List.filter_congr ?_)
    intro x _
    rw [isStale, contactActivityTime]
    rcases x.lastActivity with _ | a <;> rcases x.dateUpdated with _ | b <;>
      rcases x.dateAdded with _ | d <;> rfl
  · have hlt : now - 50 * 3600000 < now - 48 * 3600000 := by omega
    simp [checkStaleLeads, isStale, contactActivityTime, staleThreshold,
      Option.orElse, hlt]
  · have hlt : ¬ (now - 40 * 3600000 < now - 48 * 3600000) := by omega
    simp [checkStaleLeads, isStale, contactActivityTime, staleThreshold,
      Option.orElse, hlt]

/-- Witness for the amended C6 at `now = 0` with one 50h-old contact. -/
theorem checkStaleLeads_spec_witness :
    ((⟨"x", some (0 - 50 * 3600000), none, none⟩ : Contact) ∈
        (checkStaleLeads 0 none [⟨"x", some (0 - 50 * 3600000), none, none⟩]).2.1 →
      ∃ t, contactActivityTime ⟨"x", some (0 - 50 * 3600000), none, none⟩ = some t ∧
        t < 0 - staleThreshold none * 3600000) ∧
    ((checkStaleLeads 0 none [⟨"x", some (0 - 50 * 3600000), none, none⟩]).1 =
      ([⟨"x", some (0 - 50 * 3600000), none, none⟩] : List Contact).countP (fun c =>
        match c.lastActivity, c.dateUpdated, c.dateAdded with
        | some t, _, _ => decide (t < 0 - staleThreshold none * 3600000)
        | none, some t, _ => decide (t < 0 - staleThreshold none * 3600000)
        | none, none, some t => decide (t < 0 - staleThreshold none * 3600000)
        | none, none, none => false)) ∧
    (checkStaleLeads 0 none [⟨"x", some (0 - 50 * 3600000), none, none⟩]).2.1
      = [⟨"x", some (0 - 50 * 3600000), none, none⟩] ∧
    (checkStaleLeads 0 none [⟨"y", some (0 - 40 * 3600000), none, none⟩]).2.1
      = [] :=
  checkStaleLeads_spec 0 none [⟨"x", some (0 - 50 * 3600000), none, none⟩]
    ⟨"x", some (0 - 50 * 3600000), none, none⟩

/-! ## Monitoring aggregation (`runAllChecks` in `openclaw-skill/ghl_monitor.js`)

`Promise.allSettled` hands `runAllChecks` one settled outcome per check; the
aggregation maps each to its Finding independently. -/

/-- A monitoring Finding (fields the aggregation distinguishes; a fulfilled
check supplies its own `count`/`items`, a failed one gets only `check` and
`error`). -/
structure Finding where
  check : String
  count : Option Nat
  items : Option (List String)
  error : Option String
deriving Repr, DecidableEq

/-- One `Promise.allSettled` outcome: a fulfilled Finding, or a rejection
whose reason's `.message` is `reason` (absent when the reason has no
message). -/
inductive Settled where
  | fulfilled (value : Finding)
  | rejected (reason : Option String)
deriving Repr, DecidableEq

/-- The per-check settling step: a fulfilled value is kept, a rejection becomes a Finding with only `check` and `error` fields. -/
def settleCheck (name : String) (o : Settled) : Finding :=
  match o with
  | Settled.fulfilled f => f
  | Settled.rejected msg => { check := name, count := none, items := none, error := msg }

/-- The `results` object of `runAllChecks` (its `checks` map plus the
metadata fields). -/
structure Report where
  timestamp : Int
  location : String
  staleLeads : Finding
  missedFollowups : Finding
  pipelineBottlenecks : Finding
  slowResponses : Finding
deriving Repr, DecidableEq

/-- The aggregation step of `runAllChecks` over the four settled outcomes. -/
def runAllChecks (timestamp : Int) (location : String)
    (stale followups bottlenecks responses : Settled) : Report :=
  { timestamp := timestamp
    location := location
    staleLeads := settleCheck "stale_leads" stale
    missedFollowups := settleCheck "missed_followups" followups
    pipelineBottlenecks := settleCheck "pipeline_bottlenecks" bottlenecks
    slowResponses := settleCheck "slow_responses" responses }

/-- C7 — For every combination of success and failure among the four
checks: the Report has an entry for each check; a fulfilled check's entry is
its own Finding and a failed check's entry is `{check, error: message}` with
no `count`/`items`; and each entry depends only on its own check's outcome,
so one check's failure never changes — let alone removes — a sibling's
entry. -/
theorem runAllChecks_isolation (ts : Int) (loc : String)
    (s f b r : Settled) :
    ((runAllChecks ts loc s f b r).staleLeads = settleCheck "stale_leads" s ∧
     (runAllChecks ts loc s f b r).missedFollowups = settleCheck "missed_followups" f ∧
     (runAllChecks ts loc s f b r).pipelineBottlenecks
        = settleCheck "pipeline_bottlenecks" b ∧
     (runAllChecks ts loc s f b r).slowResponses = settleCheck "slow_responses" r) ∧
    (∀ name msg, settleCheck name (Settled.rejected (some msg)) =
      { check := name, count := none, items := none, error := some msg }) ∧
    (∀ name g, settleCheck name (Settled.fulfilled g) = g) ∧
    (∀ s' f' b' r',
      (runAllChecks ts loc s' f b r).missedFollowups
          = (runAllChecks ts loc s f b r).missedFollowups ∧
      (runAllChecks ts loc s f' b r).staleLeads
          = (runAllChecks ts loc s f b r).staleLeads ∧
      (runAllChecks ts loc s f b' r).slowResponses
          = (runAllChecks ts loc s f b r).slowResponses ∧
      (runAllChecks ts loc s f b r').pipelineBottlenecks
          = (runAllChecks ts loc s f b r).pipelineBottlenecks) :=
  ⟨⟨rfl, rfl, rfl, rfl⟩, fun _ _ => rfl, fun _ _ => rfl,
   fun _ _ _ _ => ⟨rfl, rfl, rfl, rfl⟩⟩

/-! ## Pipeline bottlenecks (`checkPipelineBottlenecks` in
`openclaw-skill/ghl_monitor.js`)

Per pipeline, opportunities whose `lastStageChangeAt || updatedAt ||
createdAt` predates `now - stuckDays * 86_400_000` are grouped by resolved
stage name (insertion order, like a JavaScript object keyed by first
insertion); each nonempty group becomes one bottleneck entry. -/

structure Stage where
  id : String
  name : String
deriving Repr, DecidableEq

structure Pipeline where
  id : String
  name : String
  stages : List Stage
deriving Repr, DecidableEq

structure Opp where
  id : String
  name : String
  monetaryValue : Option Int
  pipelineStageId : String
  lastStageChangeAt : Option Int
  updatedAt : Option Int
  createdAt : Option Int
deriving Repr, DecidableEq

/-- The coalescing `opp.lastStageChangeAt || opp.updatedAt || opp.createdAt`. -/
def oppStageDate (o : Opp) : Option Int :=
  o.lastStageChangeAt.orElse (fun _ => o.updatedAt.orElse (fun _ => o.createdAt))

/-- The stage-name resolution `pipeline.stages?.find(s => s.id === opp.pipelineStageId)?.name ||
opp.pipelineStageId` (an empty stage name is falsy and also falls back). -/
def stageNameFor (p : Pipeline) (o : Opp) : String :=
  match p.stages.find? (fun s => s.id == o.pipelineStageId) with
  | some s => if s.name == "" then o.pipelineStageId else s.name
  | none => o.pipelineStageId

/-- The per-opportunity record pushed into a stage group
(`{id, name, value, stuckSince}` in the source; `value` is
`opp.monetaryValue`). -/
structure StuckItem where
  id : String
  value : Option Int
deriving Repr, DecidableEq

/-- Append to the group of `key`, preserving first-insertion key order
(JavaScript object property order). -/
def pushGroup (groups : List (String × List StuckItem)) (key : String)
    (item : StuckItem) : List (String × List StuckItem) :=
  match groups with
  | [] => [(key, [item])]
  | (k, its) :: rest =>
    if k == key then (k, its ++ [item]) :: rest
    else (k, its) :: pushGroup rest key item

/-- The `stageGroups` accumulation loop for one pipeline. -/
def stageGroups (now stuckDays : Int) (p : Pipeline) (opps : List Opp) :
    List (String × List StuckItem) :=
  opps.foldl (fun gs o =>
    match oppStageDate o with
    | some d =>
      if d < now - stuckDays * 86400000 then
        pushGroup gs (stageNameFor p o) ⟨o.id, o.monetaryValue⟩
      else gs
    | none => gs) []

/-- One reported bottleneck entry. -/
structure Bottleneck where
  pipeline : String
  stage : String
  count : Nat
  totalValue : Int
  items : List StuckItem
deriving Repr, DecidableEq

/-- The `Object.entries(stageGroups)` loop for one pipeline: every nonempty
group becomes an entry with its count, summed value
(`opps.reduce((sum, o) => sum + (o.value || 0), 0)`) and first five items. -/
def bottlenecksFor (now stuckDays : Int) (p : Pipeline) (opps : List Opp) :
    List Bottleneck :=
  (stageGroups now stuckDays p opps).filterMap (fun g =>
    if g.2.length > 0 then
      some ⟨p.name, g.1, g.2.length,
        g.2.foldl (fun sum o => sum + o.value.getD 0) 0, g.2.take 5⟩
    else none)

/-- Model of `checkPipelineBottlenecks` over already-fetched data: at most three
pipelines, each paired with its fetched opportunities; returns
`(count, bottlenecks)` where `count` sums the per-entry counts. -/
def checkPipelineBottlenecks (now stuckDays : Int)
    (pipelines : List (Pipeline × List Opp)) : Nat × List Bottleneck :=
  let bs := (pipelines.take 3).foldl
    (fun acc pp => acc ++ bottlenecksFor now stuckDays pp.1 pp.2) []
  (bs.foldl (fun sum b => sum + b.count) 0, bs)

/-- C9 — Two opportunities in the same stage of one pipeline, both with
a stage date older than the stuck cutoff, produce exactly one bottleneck
entry for that stage, with `count = 2` and `totalValue` the exact sum of
their monetary values, a missing value contributing 0; the check's total
count is 2. -/
theorem checkPipelineBottlenecks_two_stuck_same_stage (now stuckDays : Int)
    (p : Pipeline) (o1 o2 : Opp) (d1 d2 : Int)
    (hsame : o1.pipelineStageId = o2.pipelineStageId)
    (hd1 : oppStageDate o1 = some d1) (hc1 : d1 < now - stuckDays * 86400000)
    (hd2 : oppStageDate o2 = some d2) (hc2 : d2 < now - stuckDays * 86400000) :
    checkPipelineBottlenecks now stuckDays [(p, [o1, o2])] =
      (2, [⟨p.name, stageNameFor p o1, 2,
            o1.monetaryValue.getD 0 + o2.monetaryValue.getD 0,
            [⟨o1.id, o1.monetaryValue⟩, ⟨o2.id, o2.monetaryValue⟩]⟩]) := by
  have hname : stageNameFor p o2 = stageNameFor p o1 := by
    rw [stageNameFor, stageNameFor, hsame]
  have hgroups : stageGroups now stuckDays p [o1, o2] =
      [(stageNameFor p o1, [⟨o1.id, o1.monetaryValue⟩, ⟨o2.id, o2.monetaryValue⟩])] := by
    rw [stageGroups]
    simp only [List.foldl_cons, List.foldl_nil, hd1, hd2, if_pos hc1, if_pos hc2]
    rw [pushGroup, pushGroup, hname]
    simp
  have hsum : List.foldl (fun sum o => sum + o.value.getD 0) 0
      ([⟨o1.id, o1.monetaryValue⟩, ⟨o2.id, o2.monetaryValue⟩] : List StuckItem)
      = o1.monetaryValue.getD 0 + o2.monetaryValue.getD 0 := by
    simp only [List.foldl_cons, List.foldl_nil]
    omega
  have hbot : bottlenecksFor now stuckDays p [o1, o2] =
      [⟨p.name, stageNameFor p o1, 2,
        o1.monetaryValue.getD 0 + o2.monetaryValue.getD 0,
        [⟨o1.id, o1.monetaryValue⟩, ⟨o2.id, o2.monetaryValue⟩]⟩] := by
    rw [bottlenecksFor, hgroups]
    simp only [List.filterMap_cons, List.filterMap_nil, List.length_cons,
      List.length_nil, hsum]
    norm_num
  have hdef : checkPipelineBottlenecks now stuckDays [(p, [o1, o2])]
      = ((bottlenecksFor now stuckDays p [o1, o2]).foldl
          (fun sum b => sum + b.count) 0,
         bottlenecksFor now stuckDays p [o1, o2]) := rfl
  rw [hdef, hbot]
  rfl

/-- Witness for C9: two opportunities stuck in stage `s1`, one worth 2500,
the other with no monetary value. -/
theorem checkPipelineBottlenecks_two_stuck_same_stage_witness :
    checkPipelineBottlenecks 1000000000 7
        [(⟨"pipe1", "Pipe", [⟨"s1", "Audit"⟩]⟩,
          [⟨"opp1", "A", some 2500, "s1", some 0, none, none⟩,
           ⟨"opp2", "B", none, "s1", some 1, none, none⟩])] =
      (2, [⟨"Pipe", stageNameFor ⟨"pipe1", "Pipe", [⟨"s1", "Audit"⟩]⟩
              ⟨"opp1", "A", some 2500, "s1", some 0, none, none⟩, 2,
            (some 2500).getD 0 + (none : Option Int).getD 0,
            [⟨"opp1", some 2500⟩, ⟨"opp2", none⟩]⟩]) :=
  checkPipelineBottlenecks_two_stuck_same_stage 1000000000 7
    ⟨"pipe1", "Pipe", [⟨"s1", "Audit"⟩]⟩
    ⟨"opp1", "A", some 2500, "s1", some 0, none, none⟩
    ⟨"opp2", "B", none, "s1", some 1, none, none⟩ 0 1
    rfl rfl (by decide) rfl (by decide)

/-! ## Credential encryption (`cli/encryption.js`)

`encrypt` packs `salt(32) ++ iv(16) ++ tag(16) ++ ciphertext` and base64
encodes it; `decrypt` base64-decodes and slices the packed buffer with
`subarray(0,32)`, `subarray(32,48)`, `subarray(48,64)`, `subarray(64)`.
Bytes are `Fin 256`.  Node's `Buffer` base64 codec is implemented
concretely below; the platform crypto primitives (PBKDF2 key derivation and
the AES-256-GCM cipher pair) are parameters constrained by their documented
contract: `createDecipheriv` with the same key, IV and auth tag inverts
`createCipheriv`, and a GCM auth tag has 16 bytes. -/

abbrev Bytes := List (Fin 256)

/-- The base64 alphabet. -/
def b64Alphabet : List Char :=
  "ABCDEFGHIJKLMNOPQRSTUVWXYZabcdefghijklmnopqrstuvwxyz0123456789+/".data

/-- Character for a 6-bit value. -/
def sextetChar (n : Nat) : Char := b64Alphabet.getD n 'A'

def charSextetAux (c : Char) : List Char → Nat → Option Nat
  | [], _ => none
  | a :: rest, i => if a = c then some i else charSextetAux c rest (i + 1)

/-- Sextet value of a base64 character. -/
def charSextet (c : Char) : Option Nat := charSextetAux c b64Alphabet 0

/-- A byte from an (already reduced) numeric value. -/
def byteOf (n : Nat) : Fin 256 := ⟨n % 256, Nat.mod_lt _ (by decide)⟩

/-- Base64 encoding of a byte list (standard alphabet, `=` padding), as
`Buffer.prototype.toString('base64')` produces. -/
def b64EncodeChars : Bytes → List Char
  | [] => []
  | [b1] => [sextetChar (b1.val / 4), sextetChar (b1.val % 4 * 16), '=', '=']
  | [b1, b2] => [sextetChar (b1.val / 4), sextetChar (b1.val % 4 * 16 + b2.val / 16),
      sextetChar (b2.val % 16 * 4), '=']
  | b1 :: b2 :: b3 :: rest =>
    sextetChar (b1.val / 4) :: sextetChar (b1.val % 4 * 16 + b2.val / 16) ::
      sextetChar (b2.val % 16 * 4 + b3.val / 64) :: sextetChar (b3.val % 64) ::
      b64EncodeChars rest

/-- Base64 decoding (`Buffer.from(data, 'base64')`) on well-formed input. -/
def b64DecodeChars : List Char → Bytes
  | c1 :: c2 :: c3 :: c4 :: rest =>
    match charSextet c1, charSextet c2 with
    | some s1, some s2 =>
      if c3 = '=' then [byteOf (s1 * 4 + s2 / 16)]
      else
        match charSextet c3 with
        | some s3 =>
          if c4 = '=' then
            [byteOf (s1 * 4 + s2 / 16), byteOf (s2 % 16 * 16 + s3 / 4)]
          else
            match charSextet c4 with
            | some s4 =>
              byteOf (s1 * 4 + s2 / 16) :: byteOf (s2 % 16 * 16 + s3 / 4) ::
                byteOf (s3 % 4 * 64 + s4) :: b64DecodeChars rest
            | none => []
        | none => []
    | _, _ => []
  | _ => []

/-- Every 6-bit value decodes back from its alphabet character. -/
theorem charSextet_sextetChar : ∀ n, n < 64 → charSextet (sextetChar n) = some n := by
  decide

/-- No alphabet character is the padding `'='`. -/
theorem sextetChar_ne_pad : ∀ n, n < 64 → ¬ (sextetChar n = '=') := by
  decide

/-- Helper: `byteOf` of an in-range value. -/
theorem byteOf_eq (n : Nat) (b : Fin 256) (h : n = b.val) : byteOf n = b := by
  subst h
  simp [byteOf, Nat.mod_eq_of_lt b.isLt, Fin.eta]

/-- Base64 decode is a left inverse of encode. -/
theorem b64_decode_encode : ∀ bs : Bytes, b64DecodeChars (b64EncodeChars bs) = bs
  | [] => rfl
  | [b1] => by
    have h1 : b1.val / 4 < 64 := by omega
    have h2 : b1.val % 4 * 16 < 64 := by omega
    rw [b64EncodeChars, b64DecodeChars,
      charSextet_sextetChar _ h1, charSextet_sextetChar _ h2]
    simp
    exact byteOf_eq _ _ (by omega)
  | [b1, b2] => by
    have h1 : b1.val / 4 < 64 := by omega
    have h2 : b1.val % 4 * 16 + b2.val / 16 < 64 := by omega
    have h3 : b2.val % 16 * 4 < 64 := by omega
    have e1 : byteOf (b1.val / 4 * 4 + (b1.val % 4 * 16 + b2.val / 16) / 16) = b1 :=
      byteOf_eq _ _ (by omega)
    rw [b64EncodeChars, b64DecodeChars,
      charSextet_sextetChar _ h1, charSextet_sextetChar _ h2]
    simp [sextetChar_ne_pad _ h3, charSextet_sextetChar _ h3, e1]
    exact byteOf_eq _ _ (by omega)
  | b1 :: b2 :: b3 :: rest => by
    have h1 : b1.val / 4 < 64 := by omega
    have h2 : b1.val % 4 * 16 + b2.val / 16 < 64 := by omega
    have h3 : b2.val % 16 * 4 + b3.val / 64 < 64 := by omega
    have h4 : b3.val % 64 < 64 := by omega
    have e1 : byteOf (b1.val / 4 * 4 + (b1.val % 4 * 16 + b2.val / 16) / 16) = b1 :=
      byteOf_eq _ _ (by omega)
    have e2 : byteOf ((b1.val % 4 * 16 + b2.val / 16) % 16 * 16 +
        (b2.val % 16 * 4 + b3.val / 64) / 4) = b2 :=
      byteOf_eq _ _ (by omega)
    have e3 : byteOf ((b2.val % 16 * 4 + b3.val / 64) % 4 * 64 + b3.val % 64) = b3 :=
      byteOf_eq _ _ (by omega)
    rw [b64EncodeChars, b64DecodeChars,
      charSextet_sextetChar _ h1, charSextet_sextetChar _ h2]
    simp [sextetChar_ne_pad _ h3, charSextet_sextetChar _ h3,
      sextetChar_ne_pad _ h4, charSextet_sextetChar _ h4, e1, e2, e3,
      b64_decode_encode rest]

/-- Model of `encrypt(plaintext, password)` from `cli/encryption.js`, over the given
random `salt` and `iv` draws.  `dk` is `deriveKey` (PBKDF2), `enc` is the
AES-256-GCM cipher returning `(ciphertext, authTag)`. -/
def encrypt (dk : String → Bytes → Bytes)
    (enc : Bytes → Bytes → Bytes → Bytes × Bytes)
    (salt iv : Bytes) (plaintext : Bytes) (password : String) : List Char :=
  let key := dk password salt
  let c := enc key iv plaintext
  b64EncodeChars (salt ++ iv ++ c.2 ++ c.1)

/-- Model of `decrypt(data, password)` from `cli/encryption.js`.  `dec` is the
AES-256-GCM decipher: key, iv, auth tag, ciphertext, and `none` models the
`final()` authentication failure throw. -/
def decrypt (dk : String → Bytes → Bytes)
    (dec : Bytes → Bytes → Bytes → Bytes → Option Bytes)
    (data : List Char) (password : String) : Option Bytes :=
  let packed := b64DecodeChars data
  let salt := packed.take 32
  let iv := (packed.drop 32).take 16
  let tag := (packed.drop 48).take 16
  let ciphertext := packed.drop 64
  let key := dk password salt
  dec key iv tag ciphertext

/-- C10 — For every plaintext (as its byte encoding), every password and
every choice of the random 32-byte salt and 16-byte IV,
`decrypt(encrypt(plaintext, password), password)` recovers the plaintext,
given the platform cipher contract: deciphering with the same derived key,
IV and auth tag inverts enciphering, and auth tags are 16 bytes. -/
theorem decrypt_encrypt_roundtrip (dk : String → Bytes → Bytes)
    (enc : Bytes → Bytes → Bytes → Bytes × Bytes)
    (dec : Bytes → Bytes → Bytes → Bytes → Option Bytes)
    (hround : ∀ key iv pt, dec key iv (enc key iv pt).2 (enc key iv pt).1 = some pt)
    (htag : ∀ key iv pt, (enc key iv pt).2.length = 16)
    (salt iv pt : Bytes) (pw : String)
    (hs : salt.length = 32) (hiv : iv.length = 16) :
    decrypt dk dec (encrypt dk enc salt iv pt pw) pw = some pt := by
  simp only [decrypt, encrypt, b64_decode_encode]
  have hX : salt ++ iv ++ (enc (dk pw salt) iv pt).2 ++ (enc (dk pw salt) iv pt).1
      = salt ++ (iv ++ ((enc (dk pw salt) iv pt).2 ++ (enc (dk pw salt) iv pt).1)) := by
    simp [List.append_assoc]
  rw [hX]
  have htake32 :
      (salt ++ (iv ++ ((enc (dk pw salt) iv pt).2 ++ (enc (dk pw salt) iv pt).1))).take 32
        = salt := List.take_left' hs
  have hdrop32 :
      (salt ++ (iv ++ ((enc (dk pw salt) iv pt).2 ++ (enc (dk pw salt) iv pt).1))).drop 32
        = iv ++ ((enc (dk pw salt) iv pt).2 ++ (enc (dk pw salt) iv pt).1) :=
    List.drop_left' hs
  have hassoc :
      salt ++ (iv ++ ((enc (dk pw salt) iv pt).2 ++ (enc (dk pw salt) iv pt).1))
        = (salt ++ iv) ++ ((enc (dk pw salt) iv pt).2 ++ (enc (dk pw salt) iv pt).1) := by
    rw [List.append_assoc]
  have hassoc2 :
      salt ++ (iv ++ ((enc (dk pw salt) iv pt).2 ++ (enc (dk pw salt) iv pt).1))
        = ((salt ++ iv) ++ (enc (dk pw salt) iv pt).2) ++ (enc (dk pw salt) iv pt).1 := by
    rw [List.append_assoc, List.append_assoc]
  have hdrop48 :
      (salt ++ (iv ++ ((enc (dk pw salt) iv pt).2 ++ (enc (dk pw salt) iv pt).1))).drop 48
        = (enc (dk pw salt) iv pt).2 ++ (enc (dk pw salt) iv pt).1 := by
    rw [hassoc]
    exact List.drop_left' (by simp [hs, hiv])
  have hdrop64 :
      (salt ++ (iv ++ ((enc (dk pw salt) iv pt).2 ++ (enc (dk pw salt) iv pt).1))).drop 64
        = (enc (dk pw salt) iv pt).1 := by
    rw [hassoc2]
    exact List.drop_left' (by simp [hs, hiv, htag])
  rw [htake32, hdrop32, hdrop48, hdrop64,
    List.take_left' hiv, List.take_left' (htag (dk pw salt) iv pt), hround]

/-- Witness for C10 with a trivial cipher satisfying the contract:
identity "encryption" with a zero tag, inverse "decryption". -/
theorem decrypt_encrypt_roundtrip_witness :
    decrypt (fun _ _ => []) (fun _ _ _ ct => some ct)
      (encrypt (fun _ _ => []) (fun _ _ msg => (msg, List.replicate 16 ⟨0, by decide⟩))
        (List.replicate 32 ⟨1, by decide⟩) (List.replicate 16 ⟨2, by decide⟩)
        [⟨104, by decide⟩, ⟨105, by decide⟩] "pw") "pw"
      = some [⟨104, by decide⟩, ⟨105, by decide⟩] :=
  decrypt_encrypt_roundtrip (fun _ _ => [])
    (fun _ _ msg => (msg, List.replicate 16 ⟨0, by decide⟩))
    (fun _ _ _ ct => some ct)
    (fun _ _ _ => rfl) (fun _ _ _ => by simp)
    (List.replicate 32 ⟨1, by decide⟩) (List.replicate 16 ⟨2, by decide⟩)
    [⟨104, by decide⟩, ⟨105, by decide⟩] "pw" (by simp) (by simp)

end GhlMcp
